import Mathlib

/-
Verification of the moderation-state engine of the Discord bot (src/index.js).
Each definition is a shallow embedding of the corresponding JavaScript
function; guild/channel/role/user identifiers are Nat, strings are List Char,
and the in-memory timer tables are explicit record fields.
-/

namespace Bot

/-! Utility parsers (src/index.js, parseDuration and msUntilNext) -/

/-- Character class of the JS regular-expression token \s (whitespace),
restricted to the ASCII whitespace characters that can occur in command
arguments. -/
def isSpaceC (c : Char) : Bool :=
  c == ' ' || c == '\t' || c == '\n' || c == '\r'

/-- Embedding of JS text.trim().toLowerCase() on a list of characters. -/
def normalizeInput (s : List Char) : List Char :=
  (((s.dropWhile isSpaceC).reverse.dropWhile isSpaceC).reverse).map Char.toLower

/-- Unit tokens accepted by the duration regex
(m|minutos?|h|horas?|d|dias?), after lower-casing. -/
def isUnitTok (u : List Char) : Bool :=
  u == ['m'] || u == ['m','i','n','u','t','o'] || u == ['m','i','n','u','t','o','s'] ||
  u == ['h'] || u == ['h','o','r','a'] || u == ['h','o','r','a','s'] ||
  u == ['d'] || u == ['d','i','a'] || u == ['d','i','a','s']

/-- Millisecond multiplier chosen by u.startsWith('m'/'h'/'d') in parseDuration. -/
def unitMul : List Char → Nat
  | 'm' :: _ => 60 * 1000
  | 'h' :: _ => 60 * 60 * 1000
  | 'd' :: _ => 24 * 60 * 60 * 1000
  | _ => 0

/-- Value of a run of decimal digits (JS parseInt(m[1], 10) on the \d+ group). -/
def digitsVal (ds : List Char) : Nat :=
  ds.foldl (fun a c => a * 10 + (c.toNat - '0'.toNat)) 0

/-- Embedding of parseDuration (src/index.js lines 127-148).  The regex
^(\d+)\s*(m|minutos?|h|horas?|d|dias?)$ decomposes the normalized input
uniquely into a maximal digit run, a maximal whitespace run, and a unit
token (no unit starts with a digit or a space); the second regex
^(\d+)(m|h|d)$ is subsumed by the first.  Returns none on no match. -/
def parseDuration (s : List Char) : Option Nat :=
  if ((normalizeInput s).takeWhile Char.isDigit).isEmpty then none
  else if isUnitTok (((normalizeInput s).dropWhile Char.isDigit).dropWhile isSpaceC)
  then some (digitsVal ((normalizeInput s).takeWhile Char.isDigit) *
             unitMul (((normalizeInput s).dropWhile Char.isDigit).dropWhile isSpaceC))
  else none

/-- The integer-plus-unit grammar of the duration regex: the normalized input
splits into a nonempty digit run, optional whitespace, and a unit token. -/
def durationGrammar (s : List Char) : Prop :=
  ∃ ds sp u, normalizeInput s = ds ++ sp ++ u ∧ ds ≠ [] ∧
    (∀ c ∈ ds, Char.isDigit c = true) ∧ (∀ c ∈ sp, isSpaceC c = true) ∧
    isUnitTok u = true

/-- Embedding of msUntilNext (src/index.js lines 192-198).  Time is the
process clock in milliseconds in the reference timezone; setHours(h, m, 0, 0)
rebases the current day's midnight, and a target not strictly in the future
is pushed to the next day. -/
def msUntilNext (hour minute now : Nat) : Nat :=
  if (now / 86400000) * 86400000 + (hour * 3600000 + minute * 60000) ≤ now
  then (now / 86400000) * 86400000 + (hour * 3600000 + minute * 60000) + 86400000 - now
  else (now / 86400000) * 86400000 + (hour * 3600000 + minute * 60000) - now

/-! Authorization gate (src/index.js, messageCreate lines 706-719; the same
order of checks appears in src/unnamed/part_001 lines 709-725 and in
canExecuteCommand there). -/

/-- Outcome of the gate run before any moderation command. -/
inductive GateOutcome
  | capabilityDenied
  | unconfigured
  | roleNotAuthorized
  | authorized
deriving DecidableEq, Repr

/-- Embedding of hasDiscordPermission (src/index.js lines 214-218):
member.permissions.has(req) or member.permissions.has(Administrator). -/
def hasDiscordPermission (hasCap isAdmin : Bool) : Bool :=
  hasCap || isAdmin

/-- Embedding of the mod-command gate (src/index.js lines 707-719): first the
platform permission check, then the unconfigured check on the bound role set
(absent binding is read back as the empty list by getCommandRoles), then the
role check with administrator bypass. -/
def commandGate (hasCap isAdmin : Bool) (memberRoles configured : List Nat) : GateOutcome :=
  if !(hasDiscordPermission hasCap isAdmin) then GateOutcome.capabilityDenied
  else if configured.isEmpty then GateOutcome.unconfigured
  else if !isAdmin && !(configured.any (fun rid => memberRoles.contains rid)) then
    GateOutcome.roleNotAuthorized
  else GateOutcome.authorized

/-! Theorems for claims C1, C8, C9 -/

/-- C1 counterexample: an actor lacking the platform capability for an
unconfigured action receives capabilityDenied, not the distinct unconfigured
outcome, so unconfigured is not reported regardless of actor capability. -/
theorem commandGate_unconfigured_counterexample :
    commandGate false false [] [] = GateOutcome.capabilityDenied ∧
    commandGate false false [] [] ≠ GateOutcome.unconfigured ∧
    ([] : List Nat).isEmpty = true := by
  decide

/-- C1 (amended): the gate reports the distinct unconfigured outcome iff the
actor passes the platform-capability step (holds the required capability or
is an administrator) and the bound role set is absent or empty. -/
theorem commandGate_unconfigured_iff (hasCap isAdmin : Bool)
    (memberRoles configured : List Nat) :
    commandGate hasCap isAdmin memberRoles configured = GateOutcome.unconfigured ↔
      ((hasCap || isAdmin) = true ∧ configured = []) := by
  cases hasCap <;> cases isAdmin <;> cases configured <;>
    simp [commandGate, hasDiscordPermission] <;> split_ifs <;> simp

/-- Witness for commandGate_unconfigured_iff at a concrete input. -/
theorem commandGate_unconfigured_iff_witness :
    commandGate true false [] [] = GateOutcome.unconfigured :=
  (commandGate_unconfigured_iff true false [] []).mpr (by decide)

/-- C8: msUntilNext returns the delay to the next future occurrence of the
given time-of-day (today if still ahead, otherwise tomorrow); in particular
for start 22:00, evaluation at 21:00 of any day d yields one hour and
evaluation at 23:00 yields twenty-three hours. -/
theorem msUntilNext_correct :
    (∀ hour minute now, msUntilNext hour minute now =
      (if hour * 3600000 + minute * 60000 ≤ now % 86400000
       then hour * 3600000 + minute * 60000 + 86400000 - now % 86400000
       else hour * 3600000 + minute * 60000 - now % 86400000)) ∧
    (∀ d, msUntilNext 22 0 (d * 86400000 + 75600000) = 3600000) ∧
    (∀ d, msUntilNext 22 0 (d * 86400000 + 82800000) = 82800000) := by
  refine ⟨fun hour minute now => ?_, fun d => ?_, fun d => ?_⟩ <;>
    · unfold msUntilNext
      split_ifs <;> omega

/-- C9: the duration parser maps 10m to 600000 ms, 2h to 7200000 ms and 3d to
259200000 ms, rejects the malformed input soon, and yields a value only on
inputs matching the integer-plus-unit grammar (hence every non-matching
input yields a parse failure, not a default). -/
theorem parseDuration_correct :
    parseDuration ['1','0','m'] = some 600000 ∧
    parseDuration ['2','h'] = some 7200000 ∧
    parseDuration ['3','d'] = some 259200000 ∧
    parseDuration ['s','o','o','n'] = none ∧
    (∀ s v, parseDuration s = some v → durationGrammar s) := by
  refine ⟨by decide, by decide, by decide, by decide, fun s v h => ?_⟩
  unfold parseDuration at h
  by_cases hE : ((normalizeInput s).takeWhile Char.isDigit).isEmpty
  · simp [hE] at h
  · by_cases hU : isUnitTok (((normalizeInput s).dropWhile Char.isDigit).dropWhile isSpaceC)
    · refine ⟨(normalizeInput s).takeWhile Char.isDigit,
        ((normalizeInput s).dropWhile Char.isDigit).takeWhile isSpaceC,
        ((normalizeInput s).dropWhile Char.isDigit).dropWhile isSpaceC,
        ?_, ?_, ?_, ?_, hU⟩
      · rw [List.append_assoc, List.takeWhile_append_dropWhile,
          List.takeWhile_append_dropWhile]
      · intro hnil
        rw [hnil] at hE
        simp at hE
      · intro c hc
        exact List.mem_takeWhile_imp hc
      · intro c hc
        exact List.mem_takeWhile_imp hc
    · simp [hE, hU] at h

/-- Witness for the grammar direction of parseDuration_correct. -/
theorem parseDuration_correct_witness :
    durationGrammar ['1','0','m'] :=
  parseDuration_correct.2.2.2.2 ['1','0','m'] 600000 (by decide)

/-! Lockdown manager (src/index.js, lockdownAll lines 325-346 and
unlockdownAll lines 348-367).  A channel's permission override for the
default-everyone principal is modelled by its SendMessages allow bit, its
SendMessages deny bit, and an abstract flag standing for every other
permission bit the override object carries. -/

/-- The default-everyone permission override object of a channel. -/
structure Overwrite where
  sendAllow : Bool
  sendDeny : Bool
  otherBits : Bool
deriving DecidableEq, Repr

/-- A guild channel: whether it is a broadcast (text/announcement) channel,
and its default-everyone override, if any. -/
structure Channel where
  isText : Bool
  everyone : Option Overwrite
deriving DecidableEq, Repr

/-- Embedding of permissionOverwrites.edit(everyone, SendMessages b): updates
only the SendMessages bits of the existing override, or creates a fresh
override carrying only those bits. -/
def editSend (o : Option Overwrite) (b : Bool) : Overwrite :=
  match o with
  | some ov => { ov with sendAllow := b, sendDeny := !b }
  | none => { sendAllow := b, sendDeny := !b, otherBits := false }

/-- Classification recorded by lockdownAll (lines 332-339): true when the
override explicitly allows SendMessages, false when it explicitly denies it,
null (none) otherwise, the allow bit checked first. -/
def sendAllowedOf (o : Option Overwrite) : Option Bool :=
  match o with
  | none => none
  | some ov =>
    if ov.sendAllow then some true
    else if ov.sendDeny then some false
    else none

/-- Tri-state broadcast-permission classification of a channel's
default-everyone override. -/
inductive Classification
  | allow
  | deny
  | inherited
deriving DecidableEq, Repr

/-- Classification as named by the spec, derived from the recorded value. -/
def classify (o : Option Overwrite) : Classification :=
  match sendAllowedOf o with
  | some true => Classification.allow
  | some false => Classification.deny
  | none => Classification.inherited

/-- Backup map built by lockdownAll: one entry per existing text channel,
holding its recorded classification. -/
def lockdownBackup (g : Nat → Option Channel) : Nat → Option (Option Bool) :=
  fun cid =>
    match g cid with
    | some ch => if ch.isText then some (sendAllowedOf ch.everyone) else none
    | none => none

/-- Channel states after lockdownAll forces SendMessages deny on every
existing text channel (line 340); other channels are untouched. -/
def lockdownApply (g : Nat → Option Channel) : Nat → Option Channel :=
  fun cid =>
    match g cid with
    | some ch =>
      if ch.isText then some { ch with everyone := some (editSend ch.everyone false) }
      else some ch
    | none => none

/-- Per-channel restore step of unlockdownAll (lines 354-362): recorded true
re-edits SendMessages to allow, recorded false to deny, and recorded null
deletes the whole default-everyone override object. -/
def restorePrev (prev : Option Bool) (o : Option Overwrite) : Option Overwrite :=
  match prev with
  | some true => some (editSend o true)
  | some false => some (editSend o false)
  | none => none

/-- Channel states after unlockdownAll replays the backup (lines 351-364):
every recorded channel still extant is restored, removed channels and
channels outside the backup are untouched. -/
def unlockdownApply (backup : Nat → Option (Option Bool)) (g : Nat → Option Channel) :
    Nat → Option Channel :=
  fun cid =>
    match backup cid with
    | some prev =>
      match g cid with
      | some ch => some { ch with everyone := restorePrev prev ch.everyone }
      | none => none
    | none => g cid

/-- C2: engaging lockdown and then lifting it restores, for every text
channel recorded in the snapshot and still extant, the pre-engage
broadcast-permission classification of the default-everyone principal:
allow is force-allowed, deny is force-denied, and inherited ends with no
explicit override at all. -/
theorem lockdown_roundtrip (g : Nat → Option Channel) (cid : Nat) (ch : Channel)
    (hg : g cid = some ch) (ht : ch.isText = true) :
    ∃ ch', unlockdownApply (lockdownBackup g) (lockdownApply g) cid = some ch' ∧
      classify ch'.everyone = classify ch.everyone ∧
      (classify ch.everyone = Classification.allow →
        ∃ ov, ch'.everyone = some ov ∧ ov.sendAllow = true) ∧
      (classify ch.everyone = Classification.deny →
        ∃ ov, ch'.everyone = some ov ∧ ov.sendDeny = true ∧ ov.sendAllow = false) ∧
      (classify ch.everyone = Classification.inherited → ch'.everyone = none) := by
  rcases ch with ⟨isText, everyone⟩
  subst ht
  rcases everyone with _ | ⟨⟨a, d, o⟩⟩ <;>
    simp [unlockdownApply, lockdownBackup, lockdownApply, hg, sendAllowedOf,
      restorePrev, editSend, classify]
  · cases a <;> cases d <;>
      simp [sendAllowedOf, restorePrev, editSend, classify]

/-- Witness for lockdown_roundtrip: a one-channel guild whose channel 0 is a
text channel with an explicit allow override. -/
theorem lockdown_roundtrip_witness :
    ∃ ch', unlockdownApply
        (lockdownBackup (fun cid => if cid = 0 then
          some ⟨true, some ⟨true, false, true⟩⟩ else none))
        (lockdownApply (fun cid => if cid = 0 then
          some ⟨true, some ⟨true, false, true⟩⟩ else none)) 0 = some ch' ∧
      classify ch'.everyone =
        classify (some (⟨true, false, true⟩ : Overwrite)) ∧
      (classify (some (⟨true, false, true⟩ : Overwrite)) = Classification.allow →
        ∃ ov, ch'.everyone = some ov ∧ ov.sendAllow = true) ∧
      (classify (some (⟨true, false, true⟩ : Overwrite)) = Classification.deny →
        ∃ ov, ch'.everyone = some ov ∧ ov.sendDeny = true ∧ ov.sendAllow = false) ∧
      (classify (some (⟨true, false, true⟩ : Overwrite)) = Classification.inherited →
        ch'.everyone = none) :=
  lockdown_roundtrip (fun cid => if cid = 0 then
    some ⟨true, some ⟨true, false, true⟩⟩ else none) 0
    ⟨true, some ⟨true, false, true⟩⟩ (by decide) (by decide)

/-- C10: for a text channel whose override existed but carried neither an
explicit SendMessages allow nor deny (classification inherited), lifting the
lockdown deletes the entire default-everyone override object, so permission
bits other than the broadcast bit are not preserved across the
engage/lift cycle. -/
theorem lockdown_lift_drops_other_bits (g : Nat → Option Channel) (cid : Nat)
    (ch : Channel) (ov : Overwrite) (hg : g cid = some ch) (ht : ch.isText = true)
    (he : ch.everyone = some ov) (ha : ov.sendAllow = false)
    (hd : ov.sendDeny = false) :
    ∃ ch', unlockdownApply (lockdownBackup g) (lockdownApply g) cid = some ch' ∧
      ch'.everyone = none := by
  rcases ch with ⟨isText, everyone⟩
  subst ht
  rcases ov with ⟨a, d, o⟩
  simp only at he
  subst he
  subst ha
  subst hd
  simp [unlockdownApply, lockdownBackup, lockdownApply, hg, sendAllowedOf,
    restorePrev, editSend]

/-- Witness for lockdown_lift_drops_other_bits: the override carries another
permission bit (otherBits true) and is still wholly deleted. -/
theorem lockdown_lift_drops_other_bits_witness :
    ∃ ch', unlockdownApply
        (lockdownBackup (fun cid => if cid = 0 then
          some ⟨true, some ⟨false, false, true⟩⟩ else none))
        (lockdownApply (fun cid => if cid = 0 then
          some ⟨true, some ⟨false, false, true⟩⟩ else none)) 0 = some ch' ∧
      ch'.everyone = none :=
  lockdown_lift_drops_other_bits (fun cid => if cid = 0 then
    some ⟨true, some ⟨false, false, true⟩⟩ else none) 0
    ⟨true, some ⟨false, false, true⟩⟩ ⟨false, false, true⟩
    (by decide) (by decide) (by decide) (by decide) (by decide)

/-! Mute scheduler (src/index.js, muteUser lines 262-294 and unmuteUser
lines 295-315).  The state is restricted to one (guild, user) key of the
muteTimers map: the list of live (armed, not cancelled, not fired) expiry
timer ids for that key, the id stored in the map entry, and the subject's
membership and restriction-role state. -/

/-- State of one (guild, user) pair of the mute subsystem. -/
structure MState where
  nextId : Nat
  pending : List Nat
  mapEntry : Option Nat
  memberExists : Bool
  roleExists : Bool
  muted : Bool
deriving DecidableEq, Repr

/-- List of timer ids referenced by a muteTimers map entry. -/
def entryList : Option Nat → List Nat
  | none => []
  | some t => [t]

/-- Well-formedness of reachable states: every live expiry timer for the key
is exactly the one registered in the muteTimers map entry. -/
def MuteWF (s : MState) : Prop :=
  s.pending = entryList s.mapEntry

/-- Errors thrown by muteUser. -/
inductive MuteErr
  | notFound
  | hierarchy
deriving DecidableEq, Repr

/-- Errors thrown by unmuteUser. -/
inductive UnmuteErr
  | notFound
  | notInState
deriving DecidableEq, Repr

/-- Embedding of muteUser: fetch the member (notFound on failure), hierarchy
check against the moderator (caller-supplied ordering, passed as a flag),
ensureMutedRole plus member.roles.add, then clearTimeout on the map entry if
present, arm a fresh expiry timeout and store it in the map. -/
def muteUser (hierOk : Bool) (s : MState) : Except MuteErr MState :=
  if !s.memberExists then Except.error MuteErr.notFound
  else if !hierOk then Except.error MuteErr.hierarchy
  else
    Except.ok
      { s with
        roleExists := true
        muted := true
        nextId := s.nextId + 1
        pending :=
          (match s.mapEntry with
           | some t => s.pending.filter (fun x => x != t)
           | none => s.pending) ++ [s.nextId]
        mapEntry := some s.nextId }

/-- Embedding of unmuteUser: fetch the member (notFound on failure), fail
with the not-in-state error when the restriction role does not exist or the
member does not hold it, otherwise remove the role, clearTimeout on the map
entry if present and delete the map entry. -/
def unmuteUser (s : MState) : Except UnmuteErr MState :=
  if !s.memberExists then Except.error UnmuteErr.notFound
  else if !(s.roleExists && s.muted) then Except.error UnmuteErr.notInState
  else
    Except.ok
      { s with
        muted := false
        pending :=
          match s.mapEntry with
          | some t => s.pending.filter (fun x => x != t)
          | none => s.pending
        mapEntry := none }

/-- Result state of a successful muteUser call on a well-formed state. -/
def mutedState (s : MState) : MState :=
  { s with
    roleExists := true
    muted := true
    nextId := s.nextId + 1
    pending := [s.nextId]
    mapEntry := some s.nextId }

/-- On a well-formed state with an existing member, muteUser succeeds and
leaves exactly the freshly armed expiry timer live. -/
theorem muteUser_ok (s : MState) (hEx : s.memberExists = true) (hWF : MuteWF s) :
    muteUser true s = Except.ok (mutedState s) := by
  unfold MuteWF at hWF
  rcases hm : s.mapEntry with _ | t <;>
    · rw [hm] at hWF
      simp [entryList] at hWF
      simp [muteUser, mutedState, hEx, hm, hWF, List.filter]

/-- C4: two successive mute calls on the same (scope, subject) cancel the
earlier pending expiry before arming the new one, leaving exactly one live
expiry timer (the second one); the first call's timer is no longer live, so
only one automatic-expiry callback can ever fire. -/
theorem muteUser_single_expiry (s : MState) (hEx : s.memberExists = true)
    (hWF : MuteWF s) :
    ∃ s1 s2, muteUser true s = Except.ok s1 ∧ muteUser true s1 = Except.ok s2 ∧
      s1.pending = [s.nextId] ∧
      s2.pending = [s.nextId + 1] ∧
      s.nextId ∉ s2.pending ∧
      MuteWF s2 := by
  refine ⟨mutedState s, mutedState (mutedState s), muteUser_ok s hEx hWF,
    muteUser_ok (mutedState s) hEx rfl, rfl, rfl, ?_, rfl⟩
  simp only [mutedState, List.mem_singleton]
  omega

/-- Witness for muteUser_single_expiry at a concrete well-formed state. -/
theorem muteUser_single_expiry_witness :
    ∃ s1 s2, muteUser true ⟨5, [3], some 3, true, true, true⟩ = Except.ok s1 ∧
      muteUser true s1 = Except.ok s2 ∧
      s1.pending = [5] ∧ s2.pending = [6] ∧ (5 : Nat) ∉ s2.pending ∧ MuteWF s2 :=
  muteUser_single_expiry ⟨5, [3], some 3, true, true, true⟩ rfl rfl

/-- Result state of a successful unmuteUser call: the restriction role is
removed and the pending expiry is cancelled. -/
def unmutedState (s : MState) : MState :=
  { s with
    muted := false
    pending := []
    mapEntry := none }

/-- C7: unmute on a member who does not hold the restriction role fails with
the not-in-state error and performs no state change; on a muted member the
first call removes the role and cancels the pending expiry, and an
immediately repeated call fails with the same not-in-state error. -/
theorem unmuteUser_notInState :
    (∀ s : MState, s.memberExists = true → s.muted = false →
      unmuteUser s = Except.error UnmuteErr.notInState) ∧
    (∀ s : MState, s.memberExists = true → s.roleExists = true → s.muted = true →
      MuteWF s →
      unmuteUser s = Except.ok (unmutedState s) ∧
      unmuteUser (unmutedState s) = Except.error UnmuteErr.notInState) := by
  constructor
  · intro s hEx hMut
    simp [unmuteUser, hEx, hMut]
  · intro s hEx hRole hMut hWF
    unfold MuteWF at hWF
    rcases hm : s.mapEntry with _ | t <;>
      · rw [hm] at hWF
        simp [entryList] at hWF
        constructor <;>
          simp [unmuteUser, unmutedState, hEx, hRole, hMut, hm, hWF, List.filter]

/-- Witness for unmuteUser_notInState: both conjuncts at concrete states. -/
theorem unmuteUser_notInState_witness :
    unmuteUser ⟨7, [], none, true, true, false⟩ = Except.error UnmuteErr.notInState ∧
    unmuteUser ⟨7, [4], some 4, true, true, true⟩ =
      Except.ok (unmutedState ⟨7, [4], some 4, true, true, true⟩) :=
  ⟨unmuteUser_notInState.1 ⟨7, [], none, true, true, false⟩ rfl rfl,
   (unmuteUser_notInState.2 ⟨7, [4], some 4, true, true, true⟩
      rfl rfl rfl rfl).1⟩

/-! Warn ledger (src/index.js, warn collector lines 827-841, warns command
lines 844-851, clearwarns lines 853-860).  The stored record for one
(guild, user) key is absent or a WarnRecord; JS truthiness of cur.count is
kept (a stored count of zero reads as unconfigured). -/

/-- Persisted warn record for one (guild, user) pair. -/
structure WarnRecord where
  count : Nat
  lastReason : List Char
  lastBy : Nat
  lastAt : Nat
deriving DecidableEq, Repr

/-- Embedding of the warn collector body: next is cur.count + 1 when the
record exists and its count is truthy, else 1; the new record is persisted
and next is reported. -/
def issueWarn (reason : List Char) (issuer ts : Nat) (cur : Option WarnRecord) :
    Nat × WarnRecord :=
  let next :=
    match cur with
    | some c => if c.count = 0 then 1 else c.count + 1
    | none => 1
  (next, ⟨next, reason, issuer, ts⟩)

/-- Embedding of the warns query: cur.count when the record exists and its
count is truthy, else 0. -/
def queryWarns (cur : Option WarnRecord) : Nat :=
  match cur with
  | some c => if c.count = 0 then 0 else c.count
  | none => 0

/-- Embedding of deleteWarns: the record is removed. -/
def deleteWarns (_cur : Option WarnRecord) : Option WarnRecord :=
  none

/-- Iterated sequential issues against the same key, with a fixed
reason/issuer/timestamp (irrelevant to the count). -/
def issueNTimes : Nat → Option WarnRecord → Option WarnRecord
  | 0, cur => cur
  | n + 1, cur => some (issueWarn [] 0 0 (issueNTimes n cur)).2

/-- Closed form of issueNTimes from an absent record. -/
theorem issueNTimes_none (n : Nat) :
    issueNTimes n none = if n = 0 then none else some ⟨n, [], 0, 0⟩ := by
  induction n with
  | zero => rfl
  | succ k ih =>
    by_cases hk : k = 0 <;>
      simp [issueNTimes, ih, hk, issueWarn]

/-- C6: issuing a warning returns the queried count plus exactly one; N
sequential issues from an absent record yield a queried count of N; after a
clear the queried count is 0 and the next issue returns 1. -/
theorem warnLedger_count :
    (∀ reason issuer ts cur, (issueWarn reason issuer ts cur).1 = queryWarns cur + 1) ∧
    (∀ n, queryWarns (issueNTimes n none) = n) ∧
    (∀ cur, queryWarns (deleteWarns cur) = 0) ∧
    (∀ reason issuer ts cur,
      (issueWarn reason issuer ts (deleteWarns cur)).1 = 1) := by
  refine ⟨fun reason issuer ts cur => ?_, fun n => ?_, fun cur => rfl,
    fun reason issuer ts cur => rfl⟩
  · rcases cur with _ | c
    · rfl
    · by_cases hc : c.count = 0 <;> simp [issueWarn, queryWarns, hc]
  · rw [issueNTimes_none]
    by_cases hn : n = 0 <;> simp [queryWarns, hn]

/-! Role-binding toggle (src/index.js, setup_role handler lines 483-503,
with addRoleToCommand lines 61-68 and removeRoleFromCommand lines 69-76;
MAX_ROLES_PER_COMMAND is 7, line 25).  The bound role set is the list of
keys of the roles object, so it never holds duplicates. -/

/-- Maximum number of roles per command binding. -/
def MAX_ROLES_PER_COMMAND : Nat := 7

/-- Embedding of addRoleToCommand: setting the key in the roles object adds
it when absent and is a no-op on membership when present. -/
def addRoleToCommand (roles : List Nat) (r : Nat) : List Nat :=
  if roles.contains r then roles else roles ++ [r]

/-- Embedding of removeRoleFromCommand: the key is deleted from the roles
object. -/
def removeRoleFromCommand (roles : List Nat) (r : Nat) : List Nat :=
  roles.filter (fun x => x != r)

/-- Outcome reported by the setup_role button handler. -/
inductive ToggleOutcome
  | added
  | capacityExceeded
  | alreadyPresentPrompt
deriving DecidableEq, Repr

/-- Embedding of the setup_role toggle handler: a present role triggers the
removal prompt; an absent role is rejected with the capacity error when the
set already holds MAX_ROLES_PER_COMMAND entries, and added otherwise. -/
def toggleRole (roles : List Nat) (r : Nat) : ToggleOutcome × List Nat :=
  if roles.contains r then (ToggleOutcome.alreadyPresentPrompt, roles)
  else if MAX_ROLES_PER_COMMAND ≤ roles.length then (ToggleOutcome.capacityExceeded, roles)
  else (ToggleOutcome.added, addRoleToCommand roles r)

/-- C5: toggling an 8th distinct role onto a 7-entry role set fails with the
capacity error and leaves the set unchanged at 7 entries, and the toggle
operation preserves the invariant that the set holds at most 7 entries. -/
theorem toggleRole_capacity :
    (∀ roles r, roles.length = 7 → roles.contains r = false →
      toggleRole roles r = (ToggleOutcome.capacityExceeded, roles)) ∧
    (∀ roles r, roles.length ≤ 7 → (toggleRole roles r).2.length ≤ 7) := by
  constructor
  · intro roles r hlen hmem
    have hmem' : r ∉ roles := by simpa using hmem
    simp [toggleRole, hmem', hlen, MAX_ROLES_PER_COMMAND]
  · intro roles r hlen
    by_cases hmem : r ∈ roles
    · simp [toggleRole, hmem, hlen]
    · by_cases hcap : MAX_ROLES_PER_COMMAND ≤ roles.length
      · simp [toggleRole, hmem, hcap, hlen]
      · simp [toggleRole, addRoleToCommand, hmem, hcap]
        simp [MAX_ROLES_PER_COMMAND] at hcap
        omega

/-- Witness for toggleRole_capacity: both conjuncts at concrete role sets. -/
theorem toggleRole_capacity_witness :
    toggleRole [1, 2, 3, 4, 5, 6, 7] 8 =
      (ToggleOutcome.capacityExceeded, [1, 2, 3, 4, 5, 6, 7]) ∧
    (toggleRole [1, 2, 3] 9).2.length ≤ 7 :=
  ⟨toggleRole_capacity.1 [1, 2, 3, 4, 5, 6, 7] 8 (by decide) (by decide),
   toggleRole_capacity.2 [1, 2, 3] 9 (by decide)⟩

/-! Lock-hour scheduler (src/index.js, clearLockHourTimers lines 372-380 and
scheduleLockHourForGuild lines 381-419).  A configuration arms four
timeouts: the engage and lift one-shots, plus two re-arming timeouts (the
startIntervalHandle and endIntervalHandle variables) that fire one second
after the one-shots and install 24-hour recurring intervals.  Only the two
one-shots and any installed intervals are recorded in the lockHourTimers
map entry; the re-arming timeouts are never recorded.  Timers are modelled
by fresh ids tagged with the configuration generation that armed them;
pending lists the live (armed, not cancelled, not fired) timers of one
guild. -/

/-- Kind of a lock-hour timer. -/
inductive TKind
  | engageShot
  | liftShot
  | engageRearm
  | liftRearm
  | engageInterval
  | liftInterval
deriving DecidableEq, Repr

/-- A live timer: its handle id, the configuration generation that armed it,
and its kind. -/
structure Timer where
  id : Nat
  gen : Nat
  kind : TKind
deriving DecidableEq, Repr

/-- The lockHourTimers map entry for a guild.  All four fields are optional:
scheduleLockHourForGuild stores the two one-shots and null intervals, and a
re-arming callback firing when the entry is absent creates a bare entry. -/
structure LHEntry where
  startTimeout : Option Nat
  endTimeout : Option Nat
  startInterval : Option Nat
  endInterval : Option Nat
deriving DecidableEq, Repr

/-- Lock-hour timer state of one guild. -/
structure LHState where
  nextId : Nat
  pending : List Timer
  entry : Option LHEntry
deriving DecidableEq, Repr

/-- Timer ids cancelled by clearLockHourTimers for a given map entry. -/
def inEntry (e : LHEntry) (i : Nat) : Bool :=
  e.startTimeout == some i || e.endTimeout == some i ||
  e.startInterval == some i || e.endInterval == some i

/-- Embedding of clearLockHourTimers: cancels exactly the timers recorded in
the map entry and deletes the entry; absent entry is a no-op. -/
def clearLockHourTimers (s : LHState) : LHState :=
  match s.entry with
  | none => s
  | some e =>
    { s with
      pending := s.pending.filter (fun t => !(inEntry e t.id))
      entry := none }

/-- Embedding of scheduleLockHourForGuild for an enabled config of generation
gen: clear the recorded timers, then arm the engage and lift one-shots, the
two re-arming timeouts, and store only the one-shots in the map entry. -/
def scheduleLockHour (gen : Nat) (s : LHState) : LHState :=
  let s1 := clearLockHourTimers s
  { nextId := s1.nextId + 4
    pending := s1.pending ++
      [⟨s1.nextId, gen, TKind.engageShot⟩, ⟨s1.nextId + 1, gen, TKind.liftShot⟩,
       ⟨s1.nextId + 2, gen, TKind.engageRearm⟩, ⟨s1.nextId + 3, gen, TKind.liftRearm⟩]
    entry := some ⟨some s1.nextId, some (s1.nextId + 1), none, none⟩ }

/-- Embedding of the start re-arming callback (lines 400-407) firing for the
timeout with the given id: the one-shot timeout is spent, a 24-hour
recurring interval of the same configuration generation is created, and its
handle is written into the startInterval field of whatever entry the map
currently holds (a fresh bare entry when none is present). -/
def fireEngageRearm (tid : Nat) (s : LHState) : LHState :=
  match s.pending.find? (fun t => t.id == tid) with
  | some t =>
    if t.kind = TKind.engageRearm then
      let e := s.entry.getD ⟨none, none, none, none⟩
      { nextId := s.nextId + 1
        pending := s.pending.filter (fun x => x.id != tid) ++
          [⟨s.nextId, t.gen, TKind.engageInterval⟩]
        entry := some { e with startInterval := some s.nextId } }
    else s
  | none => s

/-- Initial lock-hour state of a guild: no timers, no map entry. -/
def lhInit : LHState :=
  ⟨0, [], none⟩

/-- State after configuring generation 0 and then reconfiguring with
generation 1 before any generation-0 timer fires. -/
def lhAfterReconfigure : LHState :=
  scheduleLockHour 1 (scheduleLockHour 0 lhInit)

/-- C3 evaluation: reconfiguring the lock-hour schedule cancels only the two
primary one-shots recorded in the map entry; the two re-arming timeouts of
the previous configuration stay live, and firing one of them installs a
live 24-hour recurring engage interval belonging to the old configuration —
so a timer armed by the old schedule fires after reconfiguration and the
scope holds timers of two configurations at once. -/
theorem lockhour_stale_rearm_after_reconfigure :
    (lhAfterReconfigure.pending.filter (fun t => t.gen == 0)).length = 2 ∧
    (⟨2, 0, TKind.engageRearm⟩ : Timer) ∈ lhAfterReconfigure.pending ∧
    (⟨8, 0, TKind.engageInterval⟩ : Timer) ∈
      (fireEngageRearm 2 lhAfterReconfigure).pending ∧
    (⟨4, 1, TKind.engageShot⟩ : Timer) ∈
      (fireEngageRearm 2 lhAfterReconfigure).pending := by
  decide

end Bot
